import Mathlib

/-!
Verification of the cross-platform gallery rendering core described by the
repository documentation, together with an embedding of the concrete
gallery-construction artifact found in the repository source.

The concrete artifact (the over-abstracted gallery construction) is
translated from the source file directly.  The declarative-to-platform
render compiler (validator, plan builder, platform adapters, compiler)
is described by the documentation but has no implementation in the
source tree; those components are modelled from the specification text.
-/

namespace Gallery

/-! ## Concrete artifact, translated from the source file.

The source constructs a `GalleryComponent` from an alternating sequence of
`GalleryComponentImage` values and arrays of caption elements. -/

/-- A dimension record as written in the source: a unit marker string
(always `px` in the artifact) and a numeric amount. -/
structure Dimension where
  unit : String
  amount : Nat
  deriving DecidableEq, Repr

/-- The options record passed to each `GalleryComponentImage` in the source:
two unit-tagged dimensions plus a list of custom style strings. -/
structure Options where
  imageDimensionWidth : Dimension
  imageDimensionHeight : Dimension
  customStyleStrings : List String
  deriving DecidableEq, Repr

/-- `GalleryComponentImage.PathOfImage`: an image format tag and a path. -/
structure PathOfImage where
  format : String
  path : String
  deriving DecidableEq, Repr

/-- The wrapped caption content record `{e: ..., t: ...}` from the source. -/
structure CaptionContent where
  e : String
  t : String
  deriving DecidableEq, Repr

/-- `GalleryComponentImage.SubBorderCaptionElementWithText`: holds one
wrapped content record. -/
structure SubBorderCaptionElementWithText where
  content : CaptionContent
  deriving DecidableEq, Repr

/-- One element of the argument array given to the `GalleryComponent`
constructor: either an image (path plus options) or a sibling array of
caption elements. -/
inductive GalleryArg where
  | image : PathOfImage → Options → GalleryArg
  | captionGroup : List SubBorderCaptionElementWithText → GalleryArg
  deriving DecidableEq, Repr

/-- The `GalleryComponent` as constructed in the source: it receives a
single array of arguments. -/
structure GalleryComponent where
  args : List GalleryArg
  deriving DecidableEq, Repr

/-- Whether a constructor argument is an image. -/
def GalleryArg.isImage : GalleryArg → Bool
  | .image _ _ => true
  | .captionGroup _ => false

/-- Whether a constructor argument is a caption sibling array. -/
def GalleryArg.isCaptionGroup : GalleryArg → Bool
  | .image _ _ => false
  | .captionGroup _ => true

/-- The gallery value built in the source file, field for field. -/
def gallery : GalleryComponent :=
  ⟨[ .image ⟨"JPEG", "/foo/images/Picture1.jpg"⟩
       ⟨⟨"px", 200⟩, ⟨"px", 150⟩, ["border::yellow::1px"]⟩,
     .captionGroup [⟨⟨"paragraph", "The caption for this employee"⟩⟩],
     .image ⟨"JPEG", "/foo/images/Picture2.jpg"⟩
       ⟨⟨"px", 200⟩, ⟨"px", 150⟩, ["border::yellow::1px"]⟩,
     .captionGroup [⟨⟨"paragraph", "The caption for this employee"⟩⟩] ]⟩

/-! ## Data model of the render compiler.

Modelled from the spec: the pipeline (validator, plan builder, adapters,
compiler) is described in the documentation only; no implementation of it
exists in the source tree. -/

/-- Modelled from the spec: a raw, untyped input record.  The source path
may be missing, the caption is optional, and the dimensions are arbitrary
rationals so that non-positive and non-integer values can be expressed. -/
structure RawEntry where
  src : Option String
  caption : Option String
  width : ℚ
  height : ℚ
  deriving DecidableEq, Repr

/-- Modelled from the spec: a validated image entry.  `src` is a non-empty
string, the caption is optional (absence distinct from the empty string),
and width and height are bare positive integers in logical pixels; the
type has no unit marker and no style field. -/
structure ImageEntry where
  src : String
  caption : Option String
  width : Nat
  height : Nat
  deriving DecidableEq, Repr

/-- Modelled from the spec: a validated gallery specification is the
ordered list of image entries. -/
abbrev GallerySpec := List ImageEntry

/-- Modelled from the spec: one slot of the render plan, carrying its
position and the projected entry data. -/
structure Slot where
  index : Nat
  src : String
  width : Nat
  height : Nat
  caption : Option String
  deriving DecidableEq, Repr

/-- Modelled from the spec: the render plan is the ordered list of slots. -/
abbrev RenderPlan := List Slot

/-- Modelled from the spec: the validation error taxonomy, each variant
carrying the offending index where applicable. -/
inductive ValidationError where
  | emptySequence : ValidationError
  | missingSource : Nat → ValidationError
  | invalidDimension : Nat → ValidationError
  deriving DecidableEq, Repr

/-- Modelled from the spec: the platform identifier selecting an adapter. -/
inductive Target where
  | web : Target
  | native : Target
  deriving DecidableEq, Repr

/-- Modelled from the spec: a web DOM-node descriptor with a tag, string
attributes, and children. -/
inductive NodeDesc where
  | mk : String → List (String × String) → List NodeDesc → NodeDesc

/-- The tag of a node descriptor. -/
def NodeDesc.tag : NodeDesc → String
  | .mk t _ _ => t

/-- The attribute mapping of a node descriptor. -/
def NodeDesc.attributes : NodeDesc → List (String × String)
  | .mk _ a _ => a

/-- The children of a node descriptor. -/
def NodeDesc.children : NodeDesc → List NodeDesc
  | .mk _ _ c => c

/-- Modelled from the spec: one native data-source item carrying
`(src, width, height, caption-or-absent)`. -/
structure NativeItem where
  src : String
  width : Nat
  height : Nat
  caption : Option String
  deriving DecidableEq, Repr

/-- Modelled from the spec: the native adapter output, a layout hint
(column count) plus the ordered data source. -/
structure NativeAdapterDescriptor where
  columnCount : Nat
  items : List NativeItem

/-- Modelled from the spec: the target output is either web render
instructions or a native adapter descriptor. -/
inductive TargetOutput where
  | web : List NodeDesc → TargetOutput
  | native : NativeAdapterDescriptor → TargetOutput

/-! ## Validator, modelled from the spec. -/

/-- Whether a raw source field is present and non-empty. -/
def srcOk (r : RawEntry) : Bool :=
  match r.src with
  | none => false
  | some s => !(s == "")

/-- Whether one raw dimension is a positive integer. -/
def dimOk (q : ℚ) : Bool :=
  decide (0 < q) && (q.den == 1)

/-- Whether both raw dimensions of an entry are positive integers. -/
def dimsOk (r : RawEntry) : Bool :=
  dimOk r.width && dimOk r.height

/-- Index of the first element satisfying the test, if any. -/
def firstIdx (p : RawEntry → Bool) : List RawEntry → Option Nat
  | [] => none
  | r :: rest => if p r then some 0 else (firstIdx p rest).map (· + 1)

/-- Projection of a raw entry that passed validation to an image entry. -/
def toEntry (r : RawEntry) : ImageEntry :=
  { src := r.src.getD ""
    caption := r.caption
    width := r.width.num.toNat
    height := r.height.num.toNat }

/-- Modelled from the spec: the validator.  It rejects an empty sequence,
then rejects the first entry with a missing or empty source, then the
first entry with a non-positive or non-integer dimension, and otherwise
projects every entry. -/
def validate (raw : List RawEntry) : Except ValidationError GallerySpec :=
  if raw.isEmpty then .error .emptySequence
  else
    match firstIdx (fun r => !(srcOk r)) raw with
    | some i => .error (.missingSource i)
    | none =>
      match firstIdx (fun r => !(dimsOk r)) raw with
      | some i => .error (.invalidDimension i)
      | none => .ok (raw.map toEntry)

/-- A raw entry that passes every per-entry validation rule. -/
def validRaw (r : RawEntry) : Prop :=
  srcOk r = true ∧ dimsOk r = true

instance (r : RawEntry) : Decidable (validRaw r) := by
  unfold validRaw; infer_instance

/-! ## Plan builder, modelled from the spec. -/

/-- The slot projected from one entry at a given position. -/
def mkSlot (i : Nat) (e : ImageEntry) : Slot :=
  { index := i, src := e.src, width := e.width, height := e.height
    caption := e.caption }

/-- Builds the suffix of a render plan starting at a given index. -/
def buildPlanAux (i : Nat) : List ImageEntry → List Slot
  | [] => []
  | e :: rest => mkSlot i e :: buildPlanAux (i + 1) rest

/-- Modelled from the spec: the order-preserving projection of a validated
specification into a render plan. -/
def buildPlan (spec : GallerySpec) : RenderPlan :=
  buildPlanAux 0 spec

/-! ## Platform adapters, modelled from the spec. -/

/-- The image-node descriptor of one slot. -/
def imgNode (s : Slot) : NodeDesc :=
  .mk "img" [("src", s.src), ("width", toString s.width),
             ("height", toString s.height)] []

/-- The caption-node descriptor holding exactly the given text. -/
def capNode (t : String) : NodeDesc :=
  .mk "span" [("text", t)] []

/-- The container-node descriptor of one slot: the image node plus, only if
the caption is present (including the empty string), one caption node. -/
def slotNode (s : Slot) : NodeDesc :=
  .mk "div" []
    (imgNode s :: (match s.caption with
                   | none => []
                   | some t => [capNode t]))

/-- Modelled from the spec: the web adapter, one container per slot in
plan order. -/
def renderWeb (plan : RenderPlan) : List NodeDesc :=
  plan.map slotNode

/-- The native data-source item of one slot. -/
def slotItem (s : Slot) : NativeItem :=
  ⟨s.src, s.width, s.height, s.caption⟩

/-- Modelled from the spec: the native adapter, a fixed grid column count
plus the order-aligned data source. -/
def renderNative (plan : RenderPlan) : NativeAdapterDescriptor :=
  ⟨2, plan.map slotItem⟩

/-- Dispatch of a render plan to the adapter selected by the target. -/
def renderTarget (t : Target) (plan : RenderPlan) : TargetOutput :=
  match t with
  | .web => .web (renderWeb plan)
  | .native => .native (renderNative plan)

/-- Modelled from the spec: the gallery compiler.  It validates, returns
any validation error unchanged, and otherwise builds the plan once and
dispatches to the selected adapter. -/
def compile (raw : List RawEntry) (t : Target) :
    Except ValidationError TargetOutput :=
  match validate raw with
  | .error e => .error e
  | .ok spec => .ok (renderTarget t (buildPlan spec))

/-! ## Observers over target outputs. -/

/-- The source attribute of the image node inside a web container. -/
def containerSrc (n : NodeDesc) : Option String :=
  match n.children.find? (fun c => c.tag == "img") with
  | none => none
  | some c => c.attributes.lookup "src"

/-- The text of the caption node inside a web container, when one exists. -/
def containerCaption (n : NodeDesc) : Option String :=
  match n.children.find? (fun c => c.tag == "span") with
  | none => none
  | some c => c.attributes.lookup "text"

/-- Whether a web container holds a caption node at all. -/
def containerHasCaption (n : NodeDesc) : Bool :=
  n.children.any (fun c => c.tag == "span")

/-- The number of items or slots in a target output. -/
def outLength : TargetOutput → Nat
  | .web ns => ns.length
  | .native d => d.items.length

/-- The ordered list of image sources carried by a target output. -/
def outSrcs : TargetOutput → List (Option String)
  | .web ns => ns.map containerSrc
  | .native d => d.items.map (fun it => some it.src)

/-- The ordered list of captions carried by a target output, absence
preserved. -/
def outCaptions : TargetOutput → List (Option String)
  | .web ns => ns.map containerCaption
  | .native d => d.items.map (fun it => it.caption)

/-- The ordered list of caption-presence flags of a target output: for web,
whether each container holds a caption node; for native, whether each item
marks its caption present. -/
def outHasCaption : TargetOutput → List Bool
  | .web ns => ns.map containerHasCaption
  | .native d => d.items.map (fun it => it.caption.isSome)

/-! ## Helper lemmas. -/

theorem firstIdx_eq_none_of_all {p : RawEntry → Bool} {l : List RawEntry}
    (h : ∀ r ∈ l, p r = false) : firstIdx p l = none := by
  induction l with
  | nil => rfl
  | cons a rest ih =>
    have ha : p a = false := h a (List.mem_cons_self a rest)
    have hrest := ih (fun r hr => h r (List.mem_cons_of_mem a hr))
    simp [firstIdx, ha, hrest]

theorem firstIdx_some_spec {p : RawEntry → Bool} {l : List RawEntry} {i : Nat}
    (h : firstIdx p l = some i) :
    ∃ hi : i < l.length, p (l.get ⟨i, hi⟩) = true := by
  induction l generalizing i with
  | nil => simp [firstIdx] at h
  | cons a rest ih =>
    by_cases hp : p a = true
    · simp [firstIdx, hp] at h
      subst h
      exact ⟨Nat.succ_pos _, hp⟩
    · have hp' : p a = false := by
        cases hpa : p a
        · rfl
        · exact absurd hpa hp
      simp [firstIdx, hp'] at h
      obtain ⟨j, hj, hji⟩ := h
      obtain ⟨hjl, hpj⟩ := ih hj
      subst hji
      exact ⟨Nat.succ_lt_succ hjl, hpj⟩

theorem firstIdx_isSome_of_mem (p : RawEntry → Bool) {l : List RawEntry}
    {r : RawEntry} (hr : r ∈ l) (hp : p r = true) :
    ∃ i, firstIdx p l = some i := by
  induction l with
  | nil => cases hr
  | cons a rest ih =>
    by_cases hpa : p a = true
    · exact ⟨0, by simp [firstIdx, hpa]⟩
    · have hpa' : p a = false := by
        cases hx : p a
        · rfl
        · exact absurd hx hpa
      rcases List.mem_cons.mp hr with hra | hrest
      · subst hra; exact absurd hp hpa
      · obtain ⟨j, hj⟩ := ih hrest
        exact ⟨j + 1, by simp [firstIdx, hpa', hj]⟩

theorem validate_eq_ok_of_valid {raw : List RawEntry} (hne : raw ≠ [])
    (hv : ∀ r ∈ raw, validRaw r) : validate raw = .ok (raw.map toEntry) := by
  have hempty : raw.isEmpty = false := by
    cases raw
    · exact absurd rfl hne
    · rfl
  have hsrc : firstIdx (fun r => !(srcOk r)) raw = none :=
    firstIdx_eq_none_of_all (fun r hr => by simp [(hv r hr).1])
  have hdim : firstIdx (fun r => !(dimsOk r)) raw = none :=
    firstIdx_eq_none_of_all (fun r hr => by simp [(hv r hr).2])
  simp [validate, hempty, hsrc, hdim]

theorem validate_ok_inv {raw : List RawEntry} {spec : GallerySpec}
    (h : validate raw = .ok spec) :
    raw ≠ [] ∧ (∀ r ∈ raw, validRaw r) ∧ spec = raw.map toEntry := by
  by_cases hempty : raw.isEmpty
  · simp [validate, hempty] at h
  · have hne : raw ≠ [] := by
      cases raw
      · simp at hempty
      · simp
    cases hsrc : firstIdx (fun r => !(srcOk r)) raw with
    | some i => simp [validate, hempty, hsrc] at h
    | none =>
      cases hdim : firstIdx (fun r => !(dimsOk r)) raw with
      | some i => simp [validate, hempty, hsrc, hdim] at h
      | none =>
        refine ⟨hne, fun r hr => ?_, ?_⟩
        · constructor
          · by_contra hbad
            have : (srcOk r = true) → False := hbad
            have hb : (!(srcOk r)) = true := by
              cases hs : srcOk r
              · rfl
              · exact absurd hs hbad
            obtain ⟨j, hj⟩ := firstIdx_isSome_of_mem (fun r => !(srcOk r)) hr hb
            rw [hj] at hsrc
            cases hsrc
          · by_contra hbad
            have hb : (!(dimsOk r)) = true := by
              cases hs : dimsOk r
              · rfl
              · exact absurd hs hbad
            obtain ⟨j, hj⟩ := firstIdx_isSome_of_mem (fun r => !(dimsOk r)) hr hb
            rw [hj] at hdim
            cases hdim
        · simp [validate, hempty, hsrc, hdim] at h
          exact h.symm

theorem buildPlanAux_length (i : Nat) (l : List ImageEntry) :
    (buildPlanAux i l).length = l.length := by
  induction l generalizing i with
  | nil => rfl
  | cons e rest ih => simp [buildPlanAux, ih]

theorem buildPlanAux_get (n : Nat) (l : List ImageEntry) (i : Nat)
    (h1 : i < (buildPlanAux n l).length) (h2 : i < l.length) :
    (buildPlanAux n l).get ⟨i, h1⟩ = mkSlot (n + i) (l.get ⟨i, h2⟩) := by
  induction l generalizing n i with
  | nil => cases h2
  | cons e rest ih =>
    cases i with
    | zero => simp [buildPlanAux]
    | succ j =>
      have h1' : j < (buildPlanAux (n + 1) rest).length := by
        have := h1
        simpa [buildPlanAux] using this
      have h2' : j < rest.length := Nat.lt_of_succ_lt_succ h2
      have hstep := ih (n + 1) j h1' h2'
      have hgoal : (buildPlanAux n (e :: rest)).get ⟨j + 1, h1⟩ =
          (buildPlanAux (n + 1) rest).get ⟨j, h1'⟩ := by
        simp [buildPlanAux]
      rw [hgoal, hstep]
      have : n + 1 + j = n + (j + 1) := by omega
      rw [this]
      rfl

theorem buildPlan_length (spec : GallerySpec) :
    (buildPlan spec).length = List.length spec :=
  buildPlanAux_length 0 spec

theorem buildPlan_get (spec : GallerySpec) (i : Nat)
    (h1 : i < (buildPlan spec).length) (h2 : i < List.length spec) :
    (buildPlan spec).get ⟨i, h1⟩ = mkSlot i (spec.get ⟨i, h2⟩) := by
  have := buildPlanAux_get 0 spec i h1 h2
  simpa using this

theorem buildPlanAux_map {α : Type} (f : Slot → α) (g : ImageEntry → α)
    (hfg : ∀ i e, f (mkSlot i e) = g e) (n : Nat) (l : List ImageEntry) :
    (buildPlanAux n l).map f = l.map g := by
  induction l generalizing n with
  | nil => rfl
  | cons e rest ih => simp [buildPlanAux, hfg, ih]

theorem containerSrc_slotNode (s : Slot) :
    containerSrc (slotNode s) = some s.src := by
  cases s.caption <;> rfl

theorem containerCaption_slotNode (s : Slot) :
    containerCaption (slotNode s) = s.caption := by
  obtain ⟨i, src, w, h, c⟩ := s
  cases c <;> rfl

theorem containerHasCaption_slotNode (s : Slot) :
    containerHasCaption (slotNode s) = s.caption.isSome := by
  obtain ⟨i, src, w, h, c⟩ := s
  cases c <;> rfl

theorem outLength_renderTarget (t : Target) (plan : RenderPlan) :
    outLength (renderTarget t plan) = plan.length := by
  cases t <;> simp [renderTarget, renderWeb, renderNative, outLength,
    RenderPlan]

theorem outSrcs_renderTarget (t : Target) (plan : RenderPlan) :
    outSrcs (renderTarget t plan) = plan.map (fun s => some s.src) := by
  cases t <;>
    simp [renderTarget, renderWeb, renderNative, outSrcs, slotItem,
      List.map_map, Function.comp, containerSrc_slotNode]

theorem outCaptions_renderTarget (t : Target) (plan : RenderPlan) :
    outCaptions (renderTarget t plan) = plan.map (fun s => s.caption) := by
  cases t <;>
    simp [renderTarget, renderWeb, renderNative, outCaptions, slotItem,
      List.map_map, Function.comp, containerCaption_slotNode]

theorem outHasCaption_renderTarget (t : Target) (plan : RenderPlan) :
    outHasCaption (renderTarget t plan) =
      plan.map (fun s => s.caption.isSome) := by
  cases t <;>
    simp [renderTarget, renderWeb, renderNative, outHasCaption, slotItem,
      List.map_map, Function.comp, containerHasCaption_slotNode]

theorem compile_eq_ok_of_valid {raw : List RawEntry} (t : Target)
    (hne : raw ≠ []) (hv : ∀ r ∈ raw, validRaw r) :
    compile raw t = .ok (renderTarget t (buildPlan (raw.map toEntry))) := by
  simp [compile, validate_eq_ok_of_valid hne hv]

theorem buildPlan_map_src (l : List ImageEntry) :
    (buildPlan l).map (fun s => some s.src) = l.map (fun e => some e.src) :=
  buildPlanAux_map _ _ (fun _ _ => rfl) 0 l

theorem buildPlan_map_caption (l : List ImageEntry) :
    (buildPlan l).map (fun s => s.caption) = l.map (fun e => e.caption) :=
  buildPlanAux_map _ _ (fun _ _ => rfl) 0 l

theorem buildPlan_map_isSome (l : List ImageEntry) :
    (buildPlan l).map (fun s => s.caption.isSome) =
      l.map (fun e => e.caption.isSome) :=
  buildPlanAux_map _ _ (fun _ _ => rfl) 0 l

theorem toEntry_src_of_valid {r : RawEntry} (hv : validRaw r) :
    some (toEntry r).src = r.src := by
  obtain ⟨hs, hd⟩ := hv
  cases hsrc : r.src with
  | none => rw [srcOk, hsrc] at hs; cases hs
  | some s => simp [toEntry, hsrc]

/-- Extracts the index carried by a missing-source failure, if the result
is one. -/
def missingSourceIdx : Except ValidationError GallerySpec → Option Nat
  | .error (.missingSource i) => some i
  | _ => none

/-- Extracts the index carried by an invalid-dimension failure, if the
result is one. -/
def invalidDimensionIdx : Except ValidationError GallerySpec → Option Nat
  | .error (.invalidDimension i) => some i
  | _ => none

/-! ## Concrete sample entries used by witnesses and counterexamples. -/

/-- A fully valid raw entry with a caption. -/
def rGood : RawEntry := ⟨some "/a.jpg", some "Cap A", 200, 150⟩

/-- A valid raw entry with no caption at all. -/
def rGoodNoCap : RawEntry := ⟨some "/b.jpg", none, 200, 150⟩

/-- A valid raw entry whose caption is the empty string. -/
def rGoodEmptyCap : RawEntry := ⟨some "/c.jpg", some "", 120, 80⟩

/-- A raw entry whose source is the empty string. -/
def rEmptySrc : RawEntry := ⟨some "", none, 200, 150⟩

/-- A raw entry with valid source but a non-positive width. -/
def rBadDim : RawEntry := ⟨some "/a.jpg", none, 0, 150⟩

/-- A concrete validated specification with two entries. -/
def specW : GallerySpec :=
  [⟨"/a.jpg", some "Cap A", 200, 150⟩, ⟨"/b.jpg", none, 200, 150⟩]

/-! ## Claims. -/

/-- Claim C1: every image entry accepted by the pipeline is
platform-neutral.  Its width and height are bare positive integers
(logical pixels, `Nat`-valued by construction), and the entry type carries
exactly the four fields src, caption, width, height: two entries agreeing
on those fields are equal, so no unit marker and no style field exists on
the type. -/
theorem claim_C1_entry_platform_neutral (raw : List RawEntry)
    (spec : GallerySpec) (e b : ImageEntry) (h : validate raw = .ok spec)
    (he : e ∈ spec) :
    (0 < e.width ∧ 0 < e.height) ∧
      ((e.src = b.src ∧ e.caption = b.caption ∧ e.width = b.width ∧
          e.height = b.height) ↔ e = b) := by
  obtain ⟨hne, hv, hspec⟩ := validate_ok_inv h
  subst hspec
  obtain ⟨r, hr, hre⟩ := List.mem_map.mp he
  obtain ⟨hs, hd⟩ := hv r hr
  have hw : dimOk r.width = true := by
    have := hd
    unfold dimsOk at this
    exact (Bool.and_eq_true _ _ |>.mp this).1
  have hh : dimOk r.height = true := by
    have := hd
    unfold dimsOk at this
    exact (Bool.and_eq_true _ _ |>.mp this).2
  have hwpos : 0 < r.width.num := by
    unfold dimOk at hw
    have := (Bool.and_eq_true _ _ |>.mp hw).1
    exact Rat.num_pos.mpr (of_decide_eq_true this)
  have hhpos : 0 < r.height.num := by
    unfold dimOk at hh
    have := (Bool.and_eq_true _ _ |>.mp hh).1
    exact Rat.num_pos.mpr (of_decide_eq_true this)
  constructor
  · subst hre
    constructor
    · simp only [toEntry]
      omega
    · simp only [toEntry]
      omega
  · constructor
    · rintro ⟨h1, h2, h3, h4⟩
      obtain ⟨es, ec, ew, eh⟩ := e
      obtain ⟨bs, bc, bw, bh⟩ := b
      simp_all
    · rintro rfl
      exact ⟨rfl, rfl, rfl, rfl⟩

/-- Witness for claim C1 at a concrete validated entry. -/
theorem claim_C1_witness :
    (0 < (toEntry rGood).width ∧ 0 < (toEntry rGood).height) ∧
      (((toEntry rGood).src = (toEntry rGood).src ∧
          (toEntry rGood).caption = (toEntry rGood).caption ∧
          (toEntry rGood).width = (toEntry rGood).width ∧
          (toEntry rGood).height = (toEntry rGood).height) ↔
        toEntry rGood = toEntry rGood) :=
  claim_C1_entry_platform_neutral [rGood] ([rGood].map toEntry)
    (toEntry rGood) (toEntry rGood) (by rfl) (by simp)

/-- Claim C2: for every non-empty valid raw sequence and either target,
compilation succeeds and the output carries exactly one item or slot per
input entry, in input order: its length equals the input length and its
ordered source list equals the ordered source list of the input. -/
theorem claim_C2_compile_one_slot_per_entry (raw : List RawEntry)
    (t : Target) (hne : raw ≠ []) (hv : ∀ r ∈ raw, validRaw r) :
    compile raw t = .ok (renderTarget t (buildPlan (raw.map toEntry))) ∧
    outLength (renderTarget t (buildPlan (raw.map toEntry))) = raw.length ∧
    outSrcs (renderTarget t (buildPlan (raw.map toEntry))) =
      raw.map (fun r => r.src) := by
  refine ⟨compile_eq_ok_of_valid t hne hv, ?_, ?_⟩
  · rw [outLength_renderTarget, buildPlan_length, List.length_map]
  · rw [outSrcs_renderTarget, buildPlan_map_src, List.map_map]
    exact List.map_congr_left (fun r hr => toEntry_src_of_valid (hv r hr))

/-- Witness for claim C2 at a concrete two-entry input and the web
target. -/
theorem claim_C2_witness :
    compile [rGood, rGoodNoCap] .web =
      .ok (renderTarget .web (buildPlan ([rGood, rGoodNoCap].map toEntry))) ∧
    outLength (renderTarget .web (buildPlan ([rGood, rGoodNoCap].map toEntry)))
      = [rGood, rGoodNoCap].length ∧
    outSrcs (renderTarget .web (buildPlan ([rGood, rGoodNoCap].map toEntry)))
      = [rGood, rGoodNoCap].map (fun r => r.src) :=
  claim_C2_compile_one_slot_per_entry [rGood, rGoodNoCap] .web (by simp)
    (by decide)

/-- Claim C3: the plan has exactly one slot per entry in the same order;
the slot at position i carries index i and exactly the src, width, height
and caption of the entry at position i. -/
theorem claim_C3_buildPlan_projection (spec : GallerySpec) (i : Nat)
    (h1 : i < (buildPlan spec).length) (h2 : i < List.length spec) :
    (buildPlan spec).length = List.length spec ∧
    (buildPlan spec).get ⟨i, h1⟩ =
      ⟨i, (spec.get ⟨i, h2⟩).src, (spec.get ⟨i, h2⟩).width,
        (spec.get ⟨i, h2⟩).height, (spec.get ⟨i, h2⟩).caption⟩ :=
  ⟨buildPlan_length spec, buildPlan_get spec i h1 h2⟩

/-- Witness for claim C3 at a concrete two-entry specification. -/
theorem claim_C3_witness :
    (buildPlan specW).length = List.length specW ∧
    (buildPlan specW).get ⟨1, by decide⟩ =
      ⟨1, "/b.jpg", 200, 150, none⟩ :=
  claim_C3_buildPlan_projection specW 1 (by decide) (by decide)

/-- Claim C4: caption absence is distinct from the empty string and the
distinction is preserved through every stage.  A web container holds a
caption node exactly when the slot caption is present, with that exact
text; and end to end, the output caption list and caption-presence list
equal those of the raw input. -/
theorem claim_C4_caption_absence_preserved (raw : List RawEntry)
    (t : Target) (s : Slot) (hne : raw ≠ []) (hv : ∀ r ∈ raw, validRaw r) :
    (containerHasCaption (slotNode s) = s.caption.isSome ∧
      containerCaption (slotNode s) = s.caption) ∧
    compile raw t = .ok (renderTarget t (buildPlan (raw.map toEntry))) ∧
    outCaptions (renderTarget t (buildPlan (raw.map toEntry))) =
      raw.map (fun r => r.caption) ∧
    outHasCaption (renderTarget t (buildPlan (raw.map toEntry))) =
      raw.map (fun r => r.caption.isSome) := by
  refine ⟨⟨containerHasCaption_slotNode s, containerCaption_slotNode s⟩,
    compile_eq_ok_of_valid t hne hv, ?_, ?_⟩
  · rw [outCaptions_renderTarget, buildPlan_map_caption, List.map_map]
    rfl
  · rw [outHasCaption_renderTarget, buildPlan_map_isSome, List.map_map]
    rfl

/-- Witness for claim C4 at an input holding one absent caption and one
empty-string caption, under the web target. -/
theorem claim_C4_witness :
    (containerHasCaption (slotNode ⟨0, "/x.jpg", 10, 10, some ""⟩) =
        (some "").isSome ∧
      containerCaption (slotNode ⟨0, "/x.jpg", 10, 10, some ""⟩) = some "") ∧
    compile [rGoodNoCap, rGoodEmptyCap] .web =
      .ok (renderTarget .web
        (buildPlan ([rGoodNoCap, rGoodEmptyCap].map toEntry))) ∧
    outCaptions (renderTarget .web
        (buildPlan ([rGoodNoCap, rGoodEmptyCap].map toEntry))) =
      [rGoodNoCap, rGoodEmptyCap].map (fun r => r.caption) ∧
    outHasCaption (renderTarget .web
        (buildPlan ([rGoodNoCap, rGoodEmptyCap].map toEntry))) =
      [rGoodNoCap, rGoodEmptyCap].map (fun r => r.caption.isSome) :=
  claim_C4_caption_absence_preserved [rGoodNoCap, rGoodEmptyCap] .web
    ⟨0, "/x.jpg", 10, 10, some ""⟩ (by simp) (by decide)

/-- Claim C5: the empty input fails with the empty-sequence error (no
specification is returned), while a single otherwise-valid entry succeeds
and yields exactly one slot and one output item. -/
theorem claim_C5_empty_vs_singleton (r : RawEntry) (t : Target)
    (hv : validRaw r) :
    validate ([] : List RawEntry) = .error .emptySequence ∧
    compile [r] t = .ok (renderTarget t (buildPlan [toEntry r])) ∧
    (buildPlan [toEntry r]).length = 1 ∧
    outLength (renderTarget t (buildPlan [toEntry r])) = 1 := by
  have hv' : ∀ x ∈ [r], validRaw x := by
    intro x hx
    rcases List.mem_singleton.mp hx with rfl
    exact hv
  refine ⟨rfl, compile_eq_ok_of_valid t (by simp) hv', ?_, ?_⟩
  · rw [buildPlan_length]
    rfl
  · rw [outLength_renderTarget, buildPlan_length]
    rfl

/-- Witness for claim C5 at a concrete valid entry and the native
target. -/
theorem claim_C5_witness :
    validate ([] : List RawEntry) = .error .emptySequence ∧
    compile [rGood] .native =
      .ok (renderTarget .native (buildPlan [toEntry rGood])) ∧
    (buildPlan [toEntry rGood]).length = 1 ∧
    outLength (renderTarget .native (buildPlan [toEntry rGood])) = 1 :=
  claim_C5_empty_vs_singleton rGood .native (by decide)

/-- Claim C6: an input containing an entry with a missing or empty source
fails with the missing-source error, whose carried index points at an
entry of the input whose source is missing or empty; in particular the
single-entry input with an empty source fails with that error at
index 0. -/
theorem claim_C6_missing_source (raw : List RawEntry) (r : RawEntry)
    (hr : r ∈ raw) (hbad : srcOk r = false) :
    ((missingSourceIdx (validate raw)).bind (fun j => raw[j]?)).map srcOk =
      some false ∧
    validate [rEmptySrc] = .error (.missingSource 0) := by
  constructor
  · have hb : (!(srcOk r)) = true := by simp [hbad]
    obtain ⟨j, hj⟩ := firstIdx_isSome_of_mem (fun x => !(srcOk x)) hr hb
    obtain ⟨hjl, hpj⟩ := firstIdx_some_spec hj
    have hempty : raw.isEmpty = false := by
      cases raw
      · cases hr
      · rfl
    have hval : validate raw = .error (.missingSource j) := by
      simp [validate, hempty, hj]
    rw [hval]
    have hget : raw[j]? = some (raw.get ⟨j, hjl⟩) := by
      rw [List.getElem?_eq_getElem hjl]
      rfl
    simp only [missingSourceIdx, Option.bind, hget, Option.map]
    have : srcOk (raw.get ⟨j, hjl⟩) = false := by
      simpa using hpj
    rw [this]
  · rfl

/-- Witness for claim C6 at a two-entry input whose second entry has an
empty source. -/
theorem claim_C6_witness :
    ((missingSourceIdx (validate [rGood, rEmptySrc])).bind
        (fun j => [rGood, rEmptySrc][j]?)).map srcOk = some false ∧
    validate [rEmptySrc] = .error (.missingSource 0) :=
  claim_C6_missing_source [rGood, rEmptySrc] rEmptySrc (by decide) (by decide)

/-- Counterexample to claim C7 as stated: this input contains an entry
(at index 1) with a non-positive width, yet validation fails with the
missing-source error for index 0, not with an invalid-dimension error. -/
theorem claim_C7_counterexample :
    dimsOk rBadDim = false ∧
    validate [rEmptySrc, rBadDim] = .error (.missingSource 0) ∧
    invalidDimensionIdx (validate [rEmptySrc, rBadDim]) = none ∧
    validate [rEmptySrc, rBadDim] ≠ .error (.invalidDimension 1) := by
  refine ⟨by decide, by rfl, by rfl, ?_⟩
  intro h
  rw [show validate [rEmptySrc, rBadDim] = .error (.missingSource 0) from rfl]
    at h
  cases h

/-- Claim C7 as amended: for every input sequence in which every source is
present and non-empty, if some entry has a non-positive or non-integer
width or height then validation fails with the invalid-dimension error,
whose carried index points at an entry of the input with such a
dimension. -/
theorem claim_C7_invalid_dimension (raw : List RawEntry) (r : RawEntry)
    (hr : r ∈ raw) (hallsrc : ∀ x ∈ raw, srcOk x = true)
    (hbad : dimsOk r = false) :
    ((invalidDimensionIdx (validate raw)).bind (fun j => raw[j]?)).map dimsOk
      = some false := by
  have hb : (!(dimsOk r)) = true := by simp [hbad]
  obtain ⟨j, hj⟩ := firstIdx_isSome_of_mem (fun x => !(dimsOk x)) hr hb
  obtain ⟨hjl, hpj⟩ := firstIdx_some_spec hj
  have hempty : raw.isEmpty = false := by
    cases raw
    · cases hr
    · rfl
  have hsrc : firstIdx (fun x => !(srcOk x)) raw = none :=
    firstIdx_eq_none_of_all (fun x hx => by simp [hallsrc x hx])
  have hval : validate raw = .error (.invalidDimension j) := by
    simp [validate, hempty, hsrc, hj]
  rw [hval]
  have hget : raw[j]? = some (raw.get ⟨j, hjl⟩) := by
    rw [List.getElem?_eq_getElem hjl]
    rfl
  simp only [invalidDimensionIdx, Option.bind, hget, Option.map]
  have : dimsOk (raw.get ⟨j, hjl⟩) = false := by
    simpa using hpj
  rw [this]

/-- Witness for the amended claim C7 at a two-entry input whose second
entry has a non-positive width. -/
theorem claim_C7_witness :
    ((invalidDimensionIdx (validate [rGood, rBadDim])).bind
        (fun j => [rGood, rBadDim][j]?)).map dimsOk = some false :=
  claim_C7_invalid_dimension [rGood, rBadDim] rBadDim (by decide)
    (by decide) (by decide)

/-- Claim C8: compilation is deterministic and stateless: two calls of
the compiler on the same raw entries and the same target produce
structurally identical results.  The compiler is a pure function of its
two arguments, so no hidden state or cache can influence the result. -/
theorem claim_C8_compile_deterministic (raw : List RawEntry) (t : Target)
    (o1 o2 : Except ValidationError TargetOutput)
    (h1 : compile raw t = o1) (h2 : compile raw t = o2) : o1 = o2 :=
  h1.symm.trans h2

/-- Witness for claim C8: two evaluations of the compiler on the same
concrete input agree. -/
theorem claim_C8_witness : compile [rGood] .web = compile [rGood] .web :=
  claim_C8_compile_deterministic [rGood] .web (compile [rGood] .web)
    (compile [rGood] .web) rfl rfl

/-- Claim C9: compilation fails fast and atomically: it equals validation
followed, only on success, by plan building and adapter dispatch.  On a
validation failure, the validation error is returned unchanged and no
output is produced; an output exists only for a fully validated input. -/
theorem claim_C9_fail_fast_atomic (raw : List RawEntry) (t : Target) :
    compile raw t =
      (validate raw).map (fun spec => renderTarget t (buildPlan spec)) := by
  cases hv : validate raw <;> simp [compile, hv, Except.map]

/-- Claim C10: in the concrete gallery construction of the source, a
caption is not a field of its image entry: the component constructor
receives an alternating sequence of length 4 for its 2 images, each image
followed by a separate sibling array holding one caption element whose
content is the wrapped record with kind `paragraph` and the caption text,
not a plain string-or-absent caption. -/
theorem claim_C10_gallery_alternating_captions :
    gallery.args.length = 4 ∧
    gallery.args.countP GalleryArg.isImage = 2 ∧
    gallery.args.map GalleryArg.isImage = [true, false, true, false] ∧
    gallery.args[0]? = some (.image ⟨"JPEG", "/foo/images/Picture1.jpg"⟩
      ⟨⟨"px", 200⟩, ⟨"px", 150⟩, ["border::yellow::1px"]⟩) ∧
    gallery.args[1]? = some (.captionGroup
      [⟨⟨"paragraph", "The caption for this employee"⟩⟩]) ∧
    gallery.args[2]? = some (.image ⟨"JPEG", "/foo/images/Picture2.jpg"⟩
      ⟨⟨"px", 200⟩, ⟨"px", 150⟩, ["border::yellow::1px"]⟩) ∧
    gallery.args[3]? = some (.captionGroup
      [⟨⟨"paragraph", "The caption for this employee"⟩⟩]) := by
  decide

end Gallery
